import Mathlib

/-!
Verification of the agent-os contract validators and the cost-governor
decision engine.

The definitions below are a shallow embedding of the Python sources under
`src/contracts/`:

* `contracts/cost-governor/runtime_validator/types.py` — the configuration
  aggregate `CostGovernor`, its sub-objects and the `Decision` result;
* `contracts/cost-governor/runtime_validator/decision.py` — `evaluate` and
  `_apply_queue_overflow`;
* `contracts/cost-governor/runtime_validator/validator.py` —
  `runtime_invariants`, `_check_no_secrets`, `_check_no_secrets_raw`;
* `contracts/health/runtime_validator/validator.py`,
  `contracts/logging/runtime_validator/validator.py`,
  `contracts/routing/runtime_validator/validator.py` — the raw-document
  validators (`runtime_invariants` and their `_check_*` / `_scan_secrets`
  helpers).

Python floats are modelled as rationals (`ℚ`): every comparison the code
performs is modelled exactly, while float rounding is out of scope.  Python
ints are modelled as `Int`.  The external `datetime.fromisoformat`
collaborator is a parameter (`String → Option Bool`: `none` = ValueError,
`some tz` = parses, with `tz` recording whether the parsed value carries
timezone information).  Raising an exception is modelled with `Except`.
-/

/-! ## String helpers (substring search, case folding, Python str methods) -/

/-- `charsPrefixOf p l` : the char list `p` is a prefix of `l`. -/
def charsPrefixOf : List Char → List Char → Bool
  | [], _ => true
  | _ :: _, [] => false
  | a :: as, b :: bs => a == b && charsPrefixOf as bs

/-- `charsContains p l` : the char list `p` occurs inside `l` (as a
contiguous run). -/
def charsContains (p : List Char) : List Char → Bool
  | [] => charsPrefixOf p []
  | b :: bs => charsPrefixOf p (b :: bs) || charsContains p bs

/-- Python `pat in s` (case-sensitive substring search). -/
def containsSub (s pat : String) : Bool :=
  charsContains pat.data s.data

/-- Python `s.lower()` (ASCII case folding suffices for the patterns used). -/
def lowerStr (s : String) : String :=
  ⟨s.data.map Char.toLower⟩

/-- Case-insensitive substring search: models `re.search` with
`re.IGNORECASE` for an ASCII pattern (`_SK_PATTERN`, `_API_KEY_PATTERN`). -/
def containsCI (s pat : String) : Bool :=
  containsSub (lowerStr s) (lowerStr pat)

/-- Python `s.startswith p`. -/
def strStartsWith (s p : String) : Bool :=
  charsPrefixOf p.data s.data

/-- Python `not s.strip()` : the string is empty or all whitespace. -/
def isBlank (s : String) : Bool :=
  s.data.all Char.isWhitespace

/-- Python `a < b` on strings: lexicographic comparison by code point. -/
def charsLt : List Char → List Char → Bool
  | [], [] => false
  | [], _ :: _ => true
  | _ :: _, [] => false
  | a :: as, b :: bs => a < b || (a == b && charsLt as bs)

/-- Rendering of a rational in diagnostic messages (stands in for Python
float formatting; no theorem depends on the exact text). -/
def ratStr (q : ℚ) : String :=
  if q.den = 1 then toString q.num else toString q.num ++ "/" ++ toString q.den

/-! ## Cost-governor canonical types (`types.py`) -/

/-- `OnSoftCap` — actions triggered when daily spend crosses
`daily_soft_cap`. -/
inductive OnSoftCap where
  | logOnly
  | degradeModel
  | notifyOps
  | queueRequests
  deriving DecidableEq, Repr

/-- The `.value` string of an `OnSoftCap` member. -/
def OnSoftCap.value : OnSoftCap → String
  | .logOnly => "log-only"
  | .degradeModel => "degrade-model"
  | .notifyOps => "notify-ops"
  | .queueRequests => "queue-requests"

/-- `OnHardCap` — actions triggered when daily spend crosses
`daily_hard_cap`. -/
inductive OnHardCap where
  | haltAll
  | haltNoncritical
  | queueRequests
  | queueRequestsDefer
  | none
  deriving DecidableEq, Repr

/-- The `.value` string of an `OnHardCap` member. -/
def OnHardCap.value : OnHardCap → String
  | .haltAll => "halt-all"
  | .haltNoncritical => "halt-noncritical"
  | .queueRequests => "queue-requests"
  | .queueRequestsDefer => "queue-requests-defer"
  | .none => "none"

/-- `DropPolicy` — queue overflow drop policy. -/
inductive DropPolicy where
  | dropOldest
  | dropNewest
  | dropNoncriticalFirst
  deriving DecidableEq, Repr

/-- The `.value` string of a `DropPolicy` member. -/
def DropPolicy.value : DropPolicy → String
  | .dropOldest => "drop-oldest"
  | .dropNewest => "drop-newest"
  | .dropNoncriticalFirst => "drop-noncritical-first"

/-- `DecisionAction` — possible outcomes from the decision engine. -/
inductive DecisionAction where
  | allow
  | block
  | queue
  | degrade
  deriving DecidableEq, Repr

/-- `QueuePolicy` — queue policy configuration (defaults as in the source). -/
structure QueuePolicy where
  enabled : Bool := true
  max_queue_depth : Int := 1000
  default_ttl_seconds : Int := 3600
  drop_policy : DropPolicy := .dropNoncriticalFirst
  deriving DecidableEq, Repr

/-- `SpendMonitoring` — optional spend monitoring configuration. -/
structure SpendMonitoring where
  enabled : Bool := true
  alert_emails : List String := []
  daily_report : Bool := false
  anomaly_detection : Bool := false
  alert_threshold_percent : ℚ := 15
  deriving DecidableEq, Repr

/-- `CostGovernor` — the canonical cost-governor configuration aggregate. -/
structure CostGovernor where
  currency : String
  daily_soft_cap : ℚ
  daily_hard_cap : Option ℚ
  on_soft_cap : OnSoftCap
  on_hard_cap : OnHardCap
  model_degrade_ladder : List String := []
  allowlist_tasks_under_hard_cap : List String := []
  per_request_cap : Option ℚ := Option.none
  reset_timezone : String := "UTC"
  queue_policy : Option QueuePolicy := Option.none
  spend_monitoring : Option SpendMonitoring := Option.none
  deriving DecidableEq, Repr

/-- `Decision` — result of evaluating a request against a `CostGovernor`. -/
structure Decision where
  action : DecisionAction
  reason : String
  deferred : Bool := false
  degraded_model : Option String := Option.none
  log : Bool := false
  notify : Bool := false
  deriving DecidableEq, Repr

/-! ## Decision engine (`decision.py`) -/

/-- The phase-0 condition
`gov.per_request_cap is not None and estimated_cost > gov.per_request_cap`. -/
def perRequestExceeded (gov : CostGovernor) (estimated_cost : ℚ) : Bool :=
  match gov.per_request_cap with
  | some cap => decide (cap < estimated_cost)
  | Option.none => false

/-- The phase-1 condition
`gov.daily_hard_cap is not None and projected > gov.daily_hard_cap`. -/
def hardCapHit (gov : CostGovernor) (projected : ℚ) : Bool :=
  match gov.daily_hard_cap with
  | some hard => decide (hard < projected)
  | Option.none => false

/-- `_apply_queue_overflow` — check queue overflow and convert
QUEUE → BLOCK if full. -/
def apply_queue_overflow (gov : CostGovernor) (decision : Decision)
    (queue_depth : Int) : Decision :=
  match gov.queue_policy with
  | some qp =>
      if qp.max_queue_depth ≤ queue_depth then
        { action := .block, reason := "queue_overflow" }
      else decision
  | Option.none => decision

/-- `evaluate` — deterministic evaluation of a single request against a
validated `CostGovernor` (phases 0–3 of `decision.py`). -/
def evaluate (gov : CostGovernor) (estimated_cost spent_today : ℚ)
    (task_id : String) (is_critical : Bool) (queue_depth : Int) : Decision :=
  -- Phase 0: per-request cap gate
  if perRequestExceeded gov estimated_cost then
    { action := .block
      reason := "estimated_cost (" ++ ratStr estimated_cost ++ ") exceeds "
        ++ "per_request_cap (" ++
        (match gov.per_request_cap with
         | some cap => ratStr cap
         | Option.none => "None") ++ ")" }
  else
    let projected := spent_today + estimated_cost
    -- Phase 1: hard cap check
    if hardCapHit gov projected then
      match gov.on_hard_cap with
      | .haltAll =>
          { action := .block, reason := "hard_cap_exceeded: halt-all" }
      | .haltNoncritical =>
          if is_critical then
            { action := .allow
              reason := "hard_cap_exceeded: halt-noncritical, '" ++ task_id
                ++ "' is critical" }
          else
            { action := .block
              reason := "hard_cap_exceeded: halt-noncritical, '" ++ task_id
                ++ "' not in allowlist" }
      | .queueRequests =>
          apply_queue_overflow gov
            { action := .queue, reason := "hard_cap_exceeded: queue-requests" }
            queue_depth
      | .queueRequestsDefer =>
          apply_queue_overflow gov
            { action := .queue
              reason := "hard_cap_exceeded: queue-requests-defer"
              deferred := true }
            queue_depth
      | .none =>
          -- Invariant: none is only valid when daily_hard_cap is null.
          { action := .block
            reason :=
              "invariant_violation: on_hard_cap='none' with non-null daily_hard_cap" }
    else
    -- Phase 2: soft cap check
    if decide (gov.daily_soft_cap < projected) then
      match gov.on_soft_cap with
      | .logOnly =>
          { action := .allow, reason := "soft_cap_exceeded: log-only"
            log := true }
      | .degradeModel =>
          { action := .degrade, reason := "soft_cap_exceeded: degrade-model"
            degraded_model := gov.model_degrade_ladder.head? }
      | .notifyOps =>
          { action := .allow, reason := "soft_cap_exceeded: notify-ops"
            notify := true }
      | .queueRequests =>
          apply_queue_overflow gov
            { action := .queue, reason := "soft_cap_exceeded: queue-requests" }
            queue_depth
    -- Phase 3: under budget
    else
      { action := .allow, reason := "under_budget" }

/-! ## Structured-aggregate value trees (`_check_no_secrets` in
`cost-governor/runtime_validator/validator.py`)

`_check_no_secrets` walks an arbitrary Python object made of strings,
numbers, booleans, `None`, lists/tuples and (frozen) dataclasses.  Members
of the `str`-based enums are themselves strings (their `.value`), so they
are reached by the `isinstance(obj, str)` branch; the model renders them as
`.str`.  -/

mutual
/-- A node of a typed-aggregate tree as `_check_no_secrets` sees it. -/
inductive PyObj where
  | str (s : String)
  | num (q : ℚ)
  | bool (b : Bool)
  | none
  | list (items : PyList)
  | dataclass (fields : PyFields)
  deriving DecidableEq, Repr
/-- A Python list/tuple of tree nodes. -/
inductive PyList where
  | nil
  | cons (hd : PyObj) (tl : PyList)
  deriving DecidableEq, Repr
/-- The ordered `(field name, value)` pairs of a dataclass
(`dataclasses.fields` order = declaration order). -/
inductive PyFields where
  | nil
  | cons (name : String) (val : PyObj) (tl : PyFields)
  deriving DecidableEq, Repr
end

/-- The two findings `_check_no_secrets` (and `_check_no_secrets_raw`)
produce for one string value: the case-insensitive `"sk-"` pattern, and the
case-insensitive `"apikey"` pattern unless the value starts with `"$\x7b"`. -/
def secretFindings (s path : String) : List String :=
  (if containsCI s "sk-" then
    ["Secret-like 'sk-' pattern found at " ++ path ++ ": '" ++ s.take 30 ++ "'"]
   else []) ++
  (if containsCI s "apikey" && !(strStartsWith s "$\x7b") then
    ["Bare apiKey literal found at " ++ path ++ ": '" ++ s.take 30 ++ "'"]
   else [])

mutual
/-- `_check_no_secrets` — recursive scan of all string fields in a
dataclass tree. -/
def check_no_secrets : PyObj → String → List String
  | .str s, path => secretFindings s path
  | .num _, _ => []
  | .bool _, _ => []
  | .none, _ => []
  | .list items, path => check_no_secrets_items items path 0
  | .dataclass fields, path => check_no_secrets_fields fields path
/-- The `for i, item in enumerate(obj)` loop of `_check_no_secrets`. -/
def check_no_secrets_items : PyList → String → Nat → List String
  | .nil, _, _ => []
  | .cons hd tl, path, i =>
      check_no_secrets hd (path ++ "[" ++ toString i ++ "]") ++
      check_no_secrets_items tl path (i + 1)
/-- The `for f in dc_fields(obj)` loop of `_check_no_secrets`. -/
def check_no_secrets_fields : PyFields → String → List String
  | .nil, _ => []
  | .cons n v tl, path =>
      check_no_secrets v (if path = "" then n else path ++ "." ++ n) ++
      check_no_secrets_fields tl path
end

/-- Helper: a `tuple[str, ...]` field as a `PyList` of strings. -/
def strTuple : List String → PyList
  | [] => .nil
  | s :: rest => .cons (.str s) (strTuple rest)

/-- Helper: `Optional[float]` fields seen by the reflective walk. -/
def optNum : Option ℚ → PyObj
  | some q => .num q
  | Option.none => .none

/-- The `QueuePolicy` dataclass as the reflective walk of
`_check_no_secrets` traverses it (fields in declaration order). -/
def QueuePolicy.toPyObj (qp : QueuePolicy) : PyObj :=
  .dataclass
    (.cons "enabled" (.bool qp.enabled)
    (.cons "max_queue_depth" (.num qp.max_queue_depth)
    (.cons "default_ttl_seconds" (.num qp.default_ttl_seconds)
    (.cons "drop_policy" (.str qp.drop_policy.value) .nil))))

/-- The `SpendMonitoring` dataclass as the reflective walk traverses it. -/
def SpendMonitoring.toPyObj (sm : SpendMonitoring) : PyObj :=
  .dataclass
    (.cons "enabled" (.bool sm.enabled)
    (.cons "alert_emails" (.list (strTuple sm.alert_emails))
    (.cons "daily_report" (.bool sm.daily_report)
    (.cons "anomaly_detection" (.bool sm.anomaly_detection)
    (.cons "alert_threshold_percent" (.num sm.alert_threshold_percent) .nil)))))

/-- Helper: an `Optional` dataclass-valued field. -/
def optPyObj (f : α → PyObj) : Option α → PyObj
  | some a => f a
  | Option.none => .none

/-- The `CostGovernor` dataclass as the reflective walk of
`_check_no_secrets` traverses it (fields in declaration order;
`str`-enum members are reached as their value strings). -/
def CostGovernor.toPyObj (gov : CostGovernor) : PyObj :=
  .dataclass
    (.cons "currency" (.str gov.currency)
    (.cons "daily_soft_cap" (.num gov.daily_soft_cap)
    (.cons "daily_hard_cap" (optNum gov.daily_hard_cap)
    (.cons "on_soft_cap" (.str gov.on_soft_cap.value)
    (.cons "on_hard_cap" (.str gov.on_hard_cap.value)
    (.cons "model_degrade_ladder" (.list (strTuple gov.model_degrade_ladder))
    (.cons "allowlist_tasks_under_hard_cap"
      (.list (strTuple gov.allowlist_tasks_under_hard_cap))
    (.cons "per_request_cap" (optNum gov.per_request_cap)
    (.cons "reset_timezone" (.str gov.reset_timezone)
    (.cons "queue_policy" (optPyObj QueuePolicy.toPyObj gov.queue_policy)
    (.cons "spend_monitoring"
      (optPyObj SpendMonitoring.toPyObj gov.spend_monitoring) .nil)))))))))))

/-! ## Cost-governor runtime invariants (`validator.py`, typed form)

`runtime_invariants` appends the violations of six rules, in order, into
one list and raises `InvariantViolation` with all of them iff the list is
non-empty.  Each rule is modelled as the list of error strings it appends. -/

/-- Rule 1: `daily_soft_cap <= daily_hard_cap` when the hard cap is set. -/
def softLeHardErrors (gov : CostGovernor) : List String :=
  match gov.daily_hard_cap with
  | some hard =>
      if decide (hard < gov.daily_soft_cap) then
        ["daily_soft_cap (" ++ ratStr gov.daily_soft_cap ++ ") must be "
          ++ "<= daily_hard_cap (" ++ ratStr hard ++ ")"]
      else []
  | Option.none => []

/-- Rule 2: `daily_hard_cap == null` forces `on_hard_cap = "none"`. -/
def hardNullErrors (gov : CostGovernor) : List String :=
  if gov.daily_hard_cap = Option.none ∧ gov.on_hard_cap ≠ OnHardCap.none then
    ["daily_hard_cap is null so on_hard_cap must be 'none', "
      ++ "got '" ++ gov.on_hard_cap.value ++ "'"]
  else []

/-- Rule 3: `degrade-model` requires a non-empty `model_degrade_ladder`. -/
def degradeLadderErrors (gov : CostGovernor) : List String :=
  if gov.on_soft_cap = OnSoftCap.degradeModel ∧ gov.model_degrade_ladder = [] then
    ["on_soft_cap='degrade-model' requires a non-empty model_degrade_ladder"]
  else []

/-- Rule 4: `halt-noncritical` requires a non-empty allowlist. -/
def allowlistErrors (gov : CostGovernor) : List String :=
  if gov.on_hard_cap = OnHardCap.haltNoncritical ∧
      gov.allowlist_tasks_under_hard_cap = [] then
    ["on_hard_cap='halt-noncritical' requires a non-empty "
      ++ "allowlist_tasks_under_hard_cap"]
  else []

/-- Rule 6: `queue_policy` is required when a cap action uses `queue-*`. -/
def queuePolicyErrors (gov : CostGovernor) : List String :=
  if (gov.on_soft_cap = OnSoftCap.queueRequests ∨
      gov.on_hard_cap = OnHardCap.queueRequests ∨
      gov.on_hard_cap = OnHardCap.queueRequestsDefer) ∧
      gov.queue_policy = Option.none then
    ["queue_policy is required when on_soft_cap or on_hard_cap "
      ++ "uses a queue-* action"]
  else []

/-- The full error list `runtime_invariants` collects, in order
(rule 5 is the recursive secret scan over the dataclass tree). -/
def costGovernorErrors (gov : CostGovernor) : List String :=
  softLeHardErrors gov ++ hardNullErrors gov ++ degradeLadderErrors gov ++
  allowlistErrors gov ++ check_no_secrets gov.toPyObj "" ++
  queuePolicyErrors gov

/-- `runtime_invariants` for the cost governor: raises
`InvariantViolation` carrying all collected errors iff any rule failed. -/
def runtime_invariants (gov : CostGovernor) : Except (List String) Unit :=
  if costGovernorErrors gov = [] then .ok () else .error (costGovernorErrors gov)

/-! ## Raw parsed documents (`dict`/`list`/scalar trees)

The health, logging and routing validators, and the cost-governor
`_check_no_secrets_raw`, operate on raw JSON-parsed Python data: nested
dicts with string keys, lists, strings, numbers, booleans and `None`. -/

mutual
/-- A raw JSON-parsed Python value. -/
inductive JValue where
  | str (s : String)
  | num (q : ℚ)
  | bool (b : Bool)
  | null
  | arr (items : JArr)
  | obj (entries : JObj)
  deriving DecidableEq, Repr
/-- A parsed JSON array (Python list). -/
inductive JArr where
  | nil
  | cons (hd : JValue) (tl : JArr)
  deriving DecidableEq, Repr
/-- A parsed JSON object (Python dict, insertion-ordered string keys). -/
inductive JObj where
  | nil
  | cons (key : String) (val : JValue) (tl : JObj)
  deriving DecidableEq, Repr
end

/-- Python `d.get(k)` on a dict: `none` models Python `None` (key absent). -/
def jGet (entries : JObj) (k : String) : Option JValue :=
  match entries with
  | .nil => Option.none
  | .cons k' v rest => if k' = k then some v else jGet rest k

/-- Number of entries of a parsed JSON object (`len(d)`). -/
def JObj.length : JObj → Nat
  | .nil => 0
  | .cons _ _ tl => 1 + JObj.length tl

mutual
/-- Python `==` between two raw values: numbers and booleans compare
numerically (`True == 1`), strings as strings, lists element-wise, dicts
by length and key lookup — insertion-order-insensitive, as Python dict
`==` is (JSON objects have unique keys); values of different kinds are
unequal (never an error). -/
def pyEq : JValue → JValue → Bool
  | .str a, .str b => a == b
  | .num a, .num b => a == b
  | .num a, .bool b => a == (if b then (1 : ℚ) else 0)
  | .bool a, .num b => (if a then (1 : ℚ) else 0) == b
  | .bool a, .bool b => a == b
  | .null, .null => true
  | .arr a, .arr b => pyEqArr a b
  | .obj a, .obj b => a.length == b.length && pyEqObjSub a b
  | _, _ => false
/-- Element-wise Python `==` on lists. -/
def pyEqArr : JArr → JArr → Bool
  | .nil, .nil => true
  | .cons a as, .cons b bs => pyEq a b && pyEqArr as bs
  | _, _ => false
/-- `d2[k] == v` for one entry of the first dict: look the key up in the
second dict and compare the values (`false` when the key is absent). -/
def pyEqLookup (k : String) (v : JValue) : JObj → Bool
  | .nil => false
  | .cons k' w rest => if k' = k then pyEq v w else pyEqLookup k v rest
/-- Every entry of the first dict is matched in the second, whatever the
insertion order. -/
def pyEqObjSub : JObj → JObj → Bool
  | .nil, _ => true
  | .cons k v rest, b => pyEqLookup k v b && pyEqObjSub rest b
end

mutual
/-- Python `a > b` between two raw values: `none` models a `TypeError`
(e.g. a number compared with a string), `some r` the boolean result. -/
def pyGt : JValue → JValue → Option Bool
  | .num a, .num b => some (decide (b < a))
  | .num a, .bool b => some (decide ((if b then (1 : ℚ) else 0) < a))
  | .bool a, .num b => some (decide (b < (if a then (1 : ℚ) else 0)))
  | .bool a, .bool b => some (a && !b)
  | .str a, .str b => some (charsLt b.data a.data)
  | .arr a, .arr b => pyGtArr a b
  | _, _ => Option.none
/-- Python `>` on lists: at the first pair that is not `==`, compare it
with `>`; a shorter list that is a prefix of the other is smaller. -/
def pyGtArr : JArr → JArr → Option Bool
  | .nil, .nil => some false
  | .nil, .cons _ _ => some false
  | .cons _ _, .nil => some true
  | .cons a as, .cons b bs => if pyEq a b then pyGtArr as bs else pyGt a b
end

mutual
/-- `_scan_secrets` — the raw-tree secret scan shared verbatim by the
health, logging and routing validators: string values are flagged for the
case-sensitive substring `"sk-"`; dict keys are flagged for `"sk-"`, and
the fields named `apiKey`/`api_key`/`API_KEY` are flagged unless their
value is a string starting with `"$\x7b"`. -/
def scan_secrets : JValue → String → List String
  | .str s, path =>
      if containsSub s "sk-" then
        ["secret-like 'sk-' substring found at " ++ path]
      else []
  | .num _, _ => []
  | .bool _, _ => []
  | .null, _ => []
  | .obj entries, path => scan_secrets_entries entries path
  | .arr items, path => scan_secrets_items items path 0
/-- The `for key, value in obj.items()` loop of `_scan_secrets`. -/
def scan_secrets_entries : JObj → String → List String
  | .nil, _ => []
  | .cons k v rest, path =>
      (if containsSub k "sk-" then
        ["secret-like 'sk-' substring found in key at " ++ path ++ "." ++ k]
       else []) ++
      (if (k == "apiKey" || k == "api_key" || k == "API_KEY") &&
          !(match v with | .str s => strStartsWith s "$\x7b" | _ => false) then
        ["literal " ++ k ++ " detected at " ++ path ++ "." ++ k
          ++ "; use $\x7bENV_VAR\x7d"]
       else []) ++
      scan_secrets v (path ++ "." ++ k) ++
      scan_secrets_entries rest path
/-- The `for idx, item in enumerate(obj)` loop of `_scan_secrets`. -/
def scan_secrets_items : JArr → String → Nat → List String
  | .nil, _, _ => []
  | .cons hd tl, path, i =>
      scan_secrets hd (path ++ "[" ++ toString i ++ "]") ++
      scan_secrets_items tl path (i + 1)
end

mutual
/-- `_check_no_secrets_raw` (cost-governor) — recursive scan of a raw
dict/list/str tree: string values are flagged with the same two
case-insensitive patterns as `_check_no_secrets`; dict entries only have
their values scanned (keys are not examined); other scalars fall through
with no findings. -/
def check_no_secrets_raw : JValue → String → List String
  | .str s, path => secretFindings s path
  | .num _, _ => []
  | .bool _, _ => []
  | .null, _ => []
  | .obj entries, path => check_no_secrets_raw_entries entries path
  | .arr items, path => check_no_secrets_raw_items items path 0
/-- The `for k, v in obj.items()` loop of `_check_no_secrets_raw`. -/
def check_no_secrets_raw_entries : JObj → String → List String
  | .nil, _ => []
  | .cons k v rest, path =>
      check_no_secrets_raw v (if path = "" then k else path ++ "." ++ k) ++
      check_no_secrets_raw_entries rest path
/-- The `for i, item in enumerate(obj)` loop of `_check_no_secrets_raw`. -/
def check_no_secrets_raw_items : JArr → String → Nat → List String
  | .nil, _, _ => []
  | .cons hd tl, path, i =>
      check_no_secrets_raw hd (path ++ "[" ++ toString i ++ "]") ++
      check_no_secrets_raw_items tl path (i + 1)
end

/-! ## Raised outcomes of the raw-document validators -/

/-- What a raw-document validator call can raise: the aggregated
`InvariantViolation`, or a `TypeError` escaping from a Python comparison
of incomparable values. -/
inductive PyError where
  | typeError
  | invariantViolation (errors : List String)
  deriving DecidableEq, Repr

/-! ## Shared timestamp checker (`_check_timestamp`)

`datetime.fromisoformat` is an external collaborator; it is modelled as a
parameter `fromiso : String → Option Bool` (`none` = the call raises
`ValueError`; `some tz` = it parses, `tz` = the parsed value has
`tzinfo`). -/

/-- `_check_timestamp` — a timestamp must be a string, contain the
date/time separator, parse, and carry explicit timezone information. -/
def check_timestamp (fromiso : String → Option Bool) (value : Option JValue)
    (field : String) : List String :=
  match value with
  | some (.str s) =>
      if !(containsSub s "T") then
        [field ++ " must use RFC3339 date-time format"]
      else
        let candidate := if s.endsWith "Z" then s.dropRight 1 ++ "+00:00" else s
        match fromiso candidate with
        | Option.none => [field ++ " is not a valid RFC3339 date-time"]
        | some tz =>
            if tz then [] else [field ++ " must include timezone (Z or +/-HH:MM)"]
  | _ => [field ++ " must be a string in RFC3339 format"]

/-! ## Rendering of raw values inside diagnostic messages

Stands in for Python string interpolation of a raw value; no theorem
depends on the exact text produced. -/

mutual
/-- Rough `repr` of a raw value, used only inside messages. -/
def jRepr : JValue → String
  | .str s => "'" ++ s ++ "'"
  | .num q => ratStr q
  | .bool b => if b then "True" else "False"
  | .null => "None"
  | .arr items => "[" ++ jReprArr items ++ "]"
  | .obj entries => "\x7b" ++ jReprObj entries ++ "\x7d"
/-- Comma-joined `repr` of array items. -/
def jReprArr : JArr → String
  | .nil => ""
  | .cons hd .nil => jRepr hd
  | .cons hd tl => jRepr hd ++ ", " ++ jReprArr tl
/-- Comma-joined `repr` of object entries. -/
def jReprObj : JObj → String
  | .nil => ""
  | .cons k v .nil => "'" ++ k ++ "': " ++ jRepr v
  | .cons k v tl => "'" ++ k ++ "': " ++ jRepr v ++ ", " ++ jReprObj tl
end

/-- Python `str()` of a possibly absent value inside an f-string. -/
def jShowOpt : Option JValue → String
  | some (.str s) => s
  | some v => jRepr v
  | Option.none => "None"

/-! ## Health validator (`health/runtime_validator/validator.py`) -/

/-- `_check_service_name` — `service` must be a non-blank string. -/
def check_service_name (v : Option JValue) : List String :=
  match v with
  | some (.str s) =>
      if isBlank s then ["service must be a non-empty string"] else []
  | _ => ["service must be a non-empty string"]

/-- Python `value not in {allowed strings}`: set membership hashes the
value first, so an unhashable value (a list or a dict) raises
`TypeError`, modelled as `.error ()`; any hashable value is simply
tested (an absent key gives Python `None`, hashable and not in the
set). -/
def notInStrSet (v : Option JValue) (allowed : List String) :
    Except Unit Bool :=
  match v with
  | some (.arr _) => .error ()
  | some (.obj _) => .error ()
  | some (.str s) => .ok (!allowed.contains s)
  | _ => .ok true

/-- One iteration of the `_check_checks` loop: the errors it appends for
`checks[idx]` and the updated set of seen names, or the `TypeError`
escaping from the `probe_type`/`status` membership test on an unhashable
value (the errors appended so far are lost with the exception). -/
def check_check_item (fromiso : String → Option Bool) (idx : Nat)
    (check : JValue) (seen : List String) :
    Except Unit (List String × List String) :=
  let path := "checks[" ++ toString idx ++ "]"
  match check with
  | .obj c =>
      let nameStep :=
        match jGet c "name" with
        | some (.str s) =>
            if isBlank s then ([path ++ ".name must be a non-empty string"], seen)
            else if seen.contains s then (["duplicate check name: " ++ s], seen)
            else ([], s :: seen)
        | _ => ([path ++ ".name must be a non-empty string"], seen)
      match notInStrSet (jGet c "probe_type") ["liveness", "readiness", "startup"] with
      | .error () => .error ()
      | .ok probeBad =>
          let probeErrs :=
            if probeBad then
              [path ++ ".probe_type must be one of liveness/readiness/startup"]
            else []
          match notInStrSet (jGet c "status")
              ["healthy", "degraded", "unhealthy", "unknown"] with
          | .error () => .error ()
          | .ok statusBad =>
              let statusErrs :=
                if statusBad then
                  [path ++ ".status must be one of healthy/degraded/unhealthy/unknown"]
                else []
              let tsErrs :=
                check_timestamp fromiso (jGet c "timestamp") (path ++ ".timestamp")
              .ok (nameStep.1 ++ probeErrs ++ statusErrs ++ tsErrs, nameStep.2)
  | _ => .ok ([path ++ " must be an object"], seen)

/-- The `for idx, check in enumerate(checks)` loop of `_check_checks`: a
`TypeError` in any iteration escapes, discarding what was collected. -/
def check_checks_loop (fromiso : String → Option Bool) :
    JArr → Nat → List String → Except Unit (List String)
  | .nil, _, _ => .ok []
  | .cons hd tl, idx, seen =>
      match check_check_item fromiso idx hd seen with
      | .error () => .error ()
      | .ok step =>
          match check_checks_loop fromiso tl (idx + 1) step.2 with
          | .error () => .error ()
          | .ok rest => .ok (step.1 ++ rest)

/-- `_check_checks` — `checks` must be a non-empty list; each entry is
checked for name/probe_type/status/timestamp, with duplicate names
reported; an unhashable `probe_type`/`status` raises `TypeError`. -/
def check_checks (fromiso : String → Option Bool) (v : Option JValue) :
    Except Unit (List String) :=
  match v with
  | some (.arr .nil) => .ok ["checks must be a non-empty list"]
  | some (.arr items) => check_checks_loop fromiso items 0 []
  | _ => .ok ["checks must be a non-empty list"]

/-- Number of entries of a parsed JSON array (`len(checks)`). -/
def JArr.length : JArr → Nat
  | .nil => 0
  | .cons _ tl => 1 + JArr.length tl

/-- `sum(1 for item in checks if isinstance(item, dict) and
item.get("status") == st)`. -/
def statusCount (items : JArr) (st : String) : Nat :=
  match items with
  | .nil => 0
  | .cons hd tl =>
      (match hd with
       | .obj e => if jGet e "status" = some (.str st) then 1 else 0
       | _ => 0) + statusCount tl st

/-- Python `summary.get(key) != expected` negated, with `expected` an
int: a raw number or boolean equal to `n` (Python `True == 1`); anything
else — a string, `None`, a container, an absent key — is unequal. -/
def jEqNat (v : Option JValue) (n : Nat) : Bool :=
  match v with
  | some (.num q) => q == (n : ℚ)
  | some (.bool b) => (if b then (1 : ℚ) else 0) == (n : ℚ)
  | _ => false

/-- `_derive_status` — the pure function of the check-status counts. -/
def derive_status (total healthy degraded unhealthy : Nat) : String :=
  if 0 < unhealthy then "unhealthy"
  else if 0 < degraded then "degraded"
  else if healthy = total ∧ 0 < total then "healthy"
  else "unknown"

/-- `_check_summary_and_status` — every summary count must equal the
computed tally and `status` must equal the derived status; a document
whose `checks` is not a list or whose `summary` is not a dict is skipped
(schema validation owns that shape). -/
def check_summary_and_status (data : JObj) : List String :=
  match jGet data "checks", jGet data "summary" with
  | some (.arr checks), some (.obj summary) =>
      let total := checks.length
      let healthy := statusCount checks "healthy"
      let degraded := statusCount checks "degraded"
      let unhealthy := statusCount checks "unhealthy"
      let unknown := statusCount checks "unknown"
      let computed : List (String × Nat) :=
        [("total", total), ("healthy", healthy), ("degraded", degraded),
         ("unhealthy", unhealthy), ("unknown", unknown)]
      let countErrs :=
        (computed.map (fun kv =>
          if jEqNat (jGet summary kv.1) kv.2 then []
          else ["summary." ++ kv.1 ++ " must equal computed value "
            ++ toString kv.2 ++ ", got " ++ jShowOpt (jGet summary kv.1)])).flatten
      let expected_status := derive_status total healthy degraded unhealthy
      let statusErrs :=
        if (match jGet data "status" with
            | some (.str s) => s == expected_status
            | _ => false) then []
        else ["status must be '" ++ expected_status
          ++ "' for current checks/summary, got '"
          ++ jShowOpt (jGet data "status") ++ "'"]
      countErrs ++ statusErrs
  | _, _ => []

/-- The error list the health `runtime_invariants` collects, in order,
when `_check_checks` completes with errors `e3` (no `TypeError`). -/
def healthErrors (fromiso : String → Option Bool) (data : JObj)
    (e3 : List String) : List String :=
  check_timestamp fromiso (jGet data "timestamp") "timestamp" ++
  check_service_name (jGet data "service") ++
  e3 ++
  check_summary_and_status data ++
  scan_secrets (.obj data) "$"

/-- Health `runtime_invariants` — raises `InvariantViolation` with all
collected errors iff any check failed, except that a `TypeError` raised
inside `_check_checks` escapes before the remaining checks run or any
report is assembled. -/
def health_runtime_invariants (fromiso : String → Option Bool) (data : JObj) :
    Except PyError Unit :=
  let e1 := check_timestamp fromiso (jGet data "timestamp") "timestamp"
  let e2 := check_service_name (jGet data "service")
  match check_checks fromiso (jGet data "checks") with
  | .error () => .error .typeError
  | .ok e3 =>
      let errs := e1 ++ e2 ++ e3 ++ check_summary_and_status data ++
        scan_secrets (.obj data) "$"
      if errs = [] then .ok () else .error (.invariantViolation errs)

/-! ## Logging validator (`logging/runtime_validator/validator.py`) -/

/-- The entries of a parsed JSON array when every entry is a string. -/
def strListOf : JArr → Option (List String)
  | .nil => some []
  | .cons (.str s) tl =>
      match strListOf tl with
      | some rest => some (s :: rest)
      | Option.none => Option.none
  | .cons _ _ => Option.none

/-- Python `codes == sorted(codes)` on strings: the list is already in
non-decreasing lexicographic order. -/
def pySortedStrs : List String → Bool
  | [] => true
  | [_] => true
  | a :: b :: rest => !charsLt b.data a.data && pySortedStrs (b :: rest)

/-- `_check_reason_codes` — `reason_codes` must be a non-empty list of
non-blank strings, with no duplicates, in sorted order. -/
def check_reason_codes (v : Option JValue) : List String :=
  match v with
  | some (.arr .nil) => ["reason_codes must be a non-empty list"]
  | some (.arr codes) =>
      (match strListOf codes with
       | some strs =>
           if strs.any isBlank then
             ["reason_codes entries must be non-empty strings"]
           else
             (if strs.Nodup then []
              else ["reason_codes must not contain duplicates"]) ++
             (if pySortedStrs strs then []
              else ["reason_codes must be sorted for deterministic ordering"])
       | Option.none => ["reason_codes entries must be non-empty strings"])
  | _ => ["reason_codes must be a non-empty list"]

mutual
/-- The `(path, value)` pairs of all string values of a typed-aggregate
tree, in traversal order. -/
def stringLeaves : PyObj → String → List (String × String)
  | .str s, path => [(path, s)]
  | .num _, _ => []
  | .bool _, _ => []
  | .none, _ => []
  | .list items, path => stringLeavesItems items path 0
  | .dataclass fields, path => stringLeavesFields fields path
/-- String values of the items of a list, with indexed paths. -/
def stringLeavesItems : PyList → String → Nat → List (String × String)
  | .nil, _, _ => []
  | .cons hd tl, path, i =>
      stringLeaves hd (path ++ "[" ++ toString i ++ "]") ++
      stringLeavesItems tl path (i + 1)
/-- String values of the fields of a dataclass, with dotted paths. -/
def stringLeavesFields : PyFields → String → List (String × String)
  | .nil, _ => []
  | .cons n v tl, path =>
      stringLeaves v (if path = "" then n else path ++ "." ++ n) ++
      stringLeavesFields tl path
end

/-- Follows the spec's words: the findings of the secret scan over a
typed-aggregate tree are exactly the per-rule findings of each string
value, at its structural path. -/
def secret_scan_spec (t : PyObj) (path : String) : List String :=
  ((stringLeaves t path).map (fun pv => secretFindings pv.2 pv.1)).flatten

mutual
/-- The `(path, value)` pairs of all string values of a raw document
tree, in traversal order (paths as `_check_no_secrets_raw` builds them). -/
def jStringLeaves : JValue → String → List (String × String)
  | .str s, path => [(path, s)]
  | .num _, _ => []
  | .bool _, _ => []
  | .null, _ => []
  | .arr items, path => jStringLeavesItems items path 0
  | .obj entries, path => jStringLeavesEntries entries path
/-- String values of the items of a raw array, with indexed paths. -/
def jStringLeavesItems : JArr → String → Nat → List (String × String)
  | .nil, _, _ => []
  | .cons hd tl, path, i =>
      jStringLeaves hd (path ++ "[" ++ toString i ++ "]") ++
      jStringLeavesItems tl path (i + 1)
/-- String values of the entries of a raw object, with dotted paths. -/
def jStringLeavesEntries : JObj → String → List (String × String)
  | .nil, _ => []
  | .cons k v tl, path =>
      jStringLeaves v (if path = "" then k else path ++ "." ++ k) ++
      jStringLeavesEntries tl path
end

/-- Follows the spec's words: the raw-tree secret scan flags every string
value per the two case-insensitive rules, at its structural path. -/
def secret_scan_raw_spec (v : JValue) (path : String) : List String :=
  ((jStringLeaves v path).map (fun pv => secretFindings pv.2 pv.1)).flatten

mutual
/-- The key findings the spec promises of the raw-document-tree scan: one
message per map key containing `"sk-"`, at that key's path. -/
def skKeyMsgs : JValue → String → List String
  | .str _, _ => []
  | .num _, _ => []
  | .bool _, _ => []
  | .null, _ => []
  | .arr items, path => skKeyMsgsItems items path 0
  | .obj entries, path => skKeyMsgsEntries entries path
/-- Key findings inside the items of an array. -/
def skKeyMsgsItems : JArr → String → Nat → List String
  | .nil, _, _ => []
  | .cons hd tl, path, i =>
      skKeyMsgs hd (path ++ "[" ++ toString i ++ "]") ++
      skKeyMsgsItems tl path (i + 1)
/-- Key findings of the entries of an object: the key's own finding, then
findings inside its value. -/
def skKeyMsgsEntries : JObj → String → List String
  | .nil, _ => []
  | .cons k v tl, path =>
      (if containsSub k "sk-" then
        ["secret-like 'sk-' substring found in key at " ++ path ++ "." ++ k]
       else []) ++
      skKeyMsgs v (path ++ "." ++ k) ++
      skKeyMsgsEntries tl path
end

/-! ## Concrete configurations and documents used by witnesses -/

/-- A configuration whose soft-cap response queues, with a small queue. -/
def qGov : CostGovernor :=
  { currency := "USD", daily_soft_cap := 10, daily_hard_cap := some 100,
    on_soft_cap := .queueRequests, on_hard_cap := .haltAll,
    queue_policy := some { max_queue_depth := 2 } }

/-- The same configuration with no `queue_policy` configured. -/
def qGovNoPolicy : CostGovernor :=
  { currency := "USD", daily_soft_cap := 10, daily_hard_cap := some 100,
    on_soft_cap := .queueRequests, on_hard_cap := .haltAll }

/-- A configuration with no hard cap but a non-NONE hard-cap policy (the
invalid combination rule 2 reports). -/
def noHardGov : CostGovernor :=
  { currency := "USD", daily_soft_cap := 10, daily_hard_cap := Option.none,
    on_soft_cap := .logOnly, on_hard_cap := .haltAll }

/-- A configuration that degrades on the soft cap with a two-model ladder. -/
def degradeGov : CostGovernor :=
  { currency := "USD", daily_soft_cap := 10, daily_hard_cap := some 100,
    on_soft_cap := .degradeModel, on_hard_cap := .haltAll,
    model_degrade_ladder := ["model-small", "model-tiny"] }

/-- A configuration with a hard cap but response policy NONE (the
defensive decision-engine branch). -/
def noneGov : CostGovernor :=
  { currency := "USD", daily_soft_cap := 10, daily_hard_cap := some 20,
    on_soft_cap := .logOnly, on_hard_cap := .none }

/-- A health check entry with the given status. -/
def mkCheck (st : String) : JValue :=
  .obj (.cons "name" (.str "db")
    (.cons "probe_type" (.str "liveness")
    (.cons "status" (.str st)
    (.cons "timestamp" (.str "2025-01-01T00:00:00Z") .nil))))

/-- The summary object `{total:1, healthy:0, degraded:0, unhealthy:1,
unknown:0}`. -/
def oneUnhealthySummary : JObj :=
  .cons "total" (.num 1)
    (.cons "healthy" (.num 0)
    (.cons "degraded" (.num 0)
    (.cons "unhealthy" (.num 1)
    (.cons "unknown" (.num 0) .nil))))

/-- A health document with one unhealthy check and the matching summary,
asserting the (correct) status `"unhealthy"`. -/
def healthDocGood : JObj :=
  .cons "status" (.str "unhealthy")
    (.cons "checks" (.arr (.cons (mkCheck "unhealthy") .nil))
    (.cons "summary" (.obj oneUnhealthySummary) .nil))

/-- The same health document asserting status `"healthy"` instead. -/
def healthDocBad : JObj :=
  .cons "status" (.str "healthy")
    (.cons "checks" (.arr (.cons (mkCheck "unhealthy") .nil))
    (.cons "summary" (.obj oneUnhealthySummary) .nil))

/-- A health check entry whose `probe_type` is a list — unhashable in
Python, so the set-membership test of `_check_checks` raises
`TypeError`. -/
def unhashCheck : JValue :=
  .obj (.cons "name" (.str "db")
    (.cons "probe_type" (.arr .nil)
    (.cons "status" (.str "unhealthy")
    (.cons "timestamp" (.str "2025-01-01T00:00:00Z") .nil))))

/-- A health document with a status/summary mismatch (status `"healthy"`
over one unhealthy check) whose check also has an unhashable
`probe_type`. -/
def mismatchUnhashDoc : JObj :=
  .cons "status" (.str "healthy")
    (.cons "checks" (.arr (.cons unhashCheck .nil))
    (.cons "summary" (.obj oneUnhealthySummary) .nil))

/-- A prefix check fails as soon as the first characters differ. -/
theorem charsPrefixOf_ne_head (a : Char) (as : List Char) (b : Char)
    (bs : List Char) (h : (a == b) = false) :
    charsPrefixOf (a :: as) (b :: bs) = false := by
  simp [charsPrefixOf, h]

/-- The queue-overflow conversion preserves the flag/action coherence of
the decision it wraps (the fresh BLOCK it may substitute carries only
default flags). -/
theorem aqo_coherent (gov : CostGovernor) (d0 : Decision) (qd : Int)
    (h0 : (d0.deferred = true → d0.action = DecisionAction.queue) ∧
      (d0.log = true → d0.action = DecisionAction.allow) ∧
      (d0.notify = true → d0.action = DecisionAction.allow) ∧
      (∀ m, d0.degraded_model = some m → d0.action = DecisionAction.degrade)) :
    ((apply_queue_overflow gov d0 qd).deferred = true →
        (apply_queue_overflow gov d0 qd).action = DecisionAction.queue) ∧
    ((apply_queue_overflow gov d0 qd).log = true →
        (apply_queue_overflow gov d0 qd).action = DecisionAction.allow) ∧
    ((apply_queue_overflow gov d0 qd).notify = true →
        (apply_queue_overflow gov d0 qd).action = DecisionAction.allow) ∧
    (∀ m, (apply_queue_overflow gov d0 qd).degraded_model = some m →
        (apply_queue_overflow gov d0 qd).action = DecisionAction.degrade) := by
  unfold apply_queue_overflow
  cases hqp : gov.queue_policy with
  | none => exact h0
  | some qp =>
      simp only [hqp]
      by_cases hle : qp.max_queue_depth ≤ qd
      · rw [if_pos hle]
        exact ⟨by simp, by simp, by simp, by simp⟩
      · rw [if_neg hle]
        exact h0

/-! ## Claim theorems -/

/-- C10: for every configuration and all inputs, the Decision returned by
`evaluate` keeps its auxiliary flags coherent with its action: `deferred`
only with QUEUE, `log` and `notify` only with ALLOW, and a present
`degraded_model` only with DEGRADE. -/
theorem c10_decision_flag_coherence (gov : CostGovernor)
    (estimated_cost spent_today : ℚ) (task_id : String) (is_critical : Bool)
    (queue_depth : Int) :
    ((evaluate gov estimated_cost spent_today task_id is_critical queue_depth).deferred = true →
      (evaluate gov estimated_cost spent_today task_id is_critical queue_depth).action =
        DecisionAction.queue) ∧
    ((evaluate gov estimated_cost spent_today task_id is_critical queue_depth).log = true →
      (evaluate gov estimated_cost spent_today task_id is_critical queue_depth).action =
        DecisionAction.allow) ∧
    ((evaluate gov estimated_cost spent_today task_id is_critical queue_depth).notify = true →
      (evaluate gov estimated_cost spent_today task_id is_critical queue_depth).action =
        DecisionAction.allow) ∧
    (∀ m, (evaluate gov estimated_cost spent_today task_id is_critical queue_depth).degraded_model = some m →
      (evaluate gov estimated_cost spent_today task_id is_critical queue_depth).action =
        DecisionAction.degrade) := by
  suffices h : ∀ d : Decision,
      evaluate gov estimated_cost spent_today task_id is_critical queue_depth = d →
      ((d.deferred = true → d.action = DecisionAction.queue) ∧
       (d.log = true → d.action = DecisionAction.allow) ∧
       (d.notify = true → d.action = DecisionAction.allow) ∧
       (∀ m, d.degraded_model = some m → d.action = DecisionAction.degrade)) by
    exact h _ rfl
  intro d hd
  unfold evaluate at hd
  cases hpr : perRequestExceeded gov estimated_cost
  · -- phase 0 gate closed
    rw [if_neg (by simp [hpr])] at hd
    cases hhc : hardCapHit gov (spent_today + estimated_cost)
    · -- phase 1 not hit
      rw [if_neg (by simp [hhc])] at hd
      by_cases hs : gov.daily_soft_cap < spent_today + estimated_cost
      · rw [if_pos (decide_eq_true hs)] at hd
        cases hos : gov.on_soft_cap <;> simp only [hos] at hd
        · subst hd
          exact ⟨by simp, by simp, by simp, by simp⟩
        · subst hd
          exact ⟨by simp, by simp, by simp, by simp⟩
        · subst hd
          exact ⟨by simp, by simp, by simp, by simp⟩
        · rw [← hd]
          exact aqo_coherent gov _ queue_depth ⟨by simp, by simp, by simp, by simp⟩
      · rw [if_neg (by simp [hs])] at hd
        subst hd
        exact ⟨by simp, by simp, by simp, by simp⟩
    · -- phase 1 dispatch
      rw [if_pos hhc] at hd
      cases hoh : gov.on_hard_cap <;> simp only [hoh] at hd
      · subst hd
        exact ⟨by simp, by simp, by simp, by simp⟩
      · by_cases hc : is_critical = true
        · rw [if_pos hc] at hd
          subst hd
          exact ⟨by simp, by simp, by simp, by simp⟩
        · rw [if_neg hc] at hd
          subst hd
          exact ⟨by simp, by simp, by simp, by simp⟩
      · rw [← hd]
        exact aqo_coherent gov _ queue_depth ⟨by simp, by simp, by simp, by simp⟩
      · rw [← hd]
        exact aqo_coherent gov _ queue_depth ⟨by simp, by simp, by simp, by simp⟩
      · subst hd
        exact ⟨by simp, by simp, by simp, by simp⟩
  · -- phase 0 block
    rw [if_pos hpr] at hd
    subst hd
    exact ⟨by simp, by simp, by simp, by simp⟩

/-- C3: with `on_soft_cap = DEGRADE_MODEL` and a non-empty
`model_degrade_ladder`, a request resolved in the soft-cap phase (the
per-request gate did not fire, the hard-cap phase did not resolve, and the
projected spend exceeds the soft cap) yields DEGRADE with `degraded_model`
equal to the first ladder entry — never any other element. -/
theorem c3_degrade_uses_ladder_head (gov : CostGovernor) (m : String)
    (ms : List String) (estimated_cost spent_today : ℚ) (task_id : String)
    (is_critical : Bool) (queue_depth : Int)
    (hsoft : gov.on_soft_cap = OnSoftCap.degradeModel)
    (hladder : gov.model_degrade_ladder = m :: ms)
    (hper : perRequestExceeded gov estimated_cost = false)
    (hhard : hardCapHit gov (spent_today + estimated_cost) = false)
    (hproj : gov.daily_soft_cap < spent_today + estimated_cost) :
    evaluate gov estimated_cost spent_today task_id is_critical queue_depth =
      { action := DecisionAction.degrade
        reason := "soft_cap_exceeded: degrade-model"
        degraded_model := some m } := by
  unfold evaluate
  rw [if_neg (by simp [hper])]
  rw [if_neg (by simp [hhard])]
  rw [if_pos (decide_eq_true hproj)]
  simp only [hsoft, hladder, List.head?]

/-- Witness for C3: a concrete degrade configuration at spend 8 + cost 5
against soft cap 10 degrades to the first ladder entry. -/
theorem c3_degrade_uses_ladder_head_witness :
    evaluate degradeGov 5 8 "task" false 0 =
      { action := DecisionAction.degrade
        reason := "soft_cap_exceeded: degrade-model"
        degraded_model := some "model-small" } :=
  c3_degrade_uses_ladder_head degradeGov "model-small" ["model-tiny"] 5 8 "task"
    false 0 rfl rfl rfl (by norm_num [hardCapHit, degradeGov])
    (by norm_num [degradeGov])

/-- C4: with a non-None `daily_hard_cap` and `on_hard_cap = NONE`, a
request whose projected spend exceeds the hard cap (and whose per-request
gate did not fire) is resolved by the defensive branch: a BLOCK whose
reason carries `invariant_violation`; `evaluate` is a total function, so
no exception is raised. -/
theorem c4_invariant_violation_branch (gov : CostGovernor) (hard : ℚ)
    (estimated_cost spent_today : ℚ) (task_id : String) (is_critical : Bool)
    (queue_depth : Int)
    (hcap : gov.daily_hard_cap = some hard)
    (hnone : gov.on_hard_cap = OnHardCap.none)
    (hper : perRequestExceeded gov estimated_cost = false)
    (hproj : hard < spent_today + estimated_cost) :
    evaluate gov estimated_cost spent_today task_id is_critical queue_depth =
      { action := DecisionAction.block
        reason := "invariant_violation: on_hard_cap='none' with non-null daily_hard_cap" } ∧
    containsSub
      (evaluate gov estimated_cost spent_today task_id is_critical queue_depth).reason
      "invariant_violation" = true := by
  have hh : hardCapHit gov (spent_today + estimated_cost) = true := by
    simp [hardCapHit, hcap]
    exact hproj
  have he : evaluate gov estimated_cost spent_today task_id is_critical queue_depth =
      { action := DecisionAction.block
        reason := "invariant_violation: on_hard_cap='none' with non-null daily_hard_cap" } := by
    unfold evaluate
    rw [if_neg (by simp [hper])]
    rw [if_pos hh]
    simp only [hnone]
  refine ⟨he, ?_⟩
  rw [he]
  decide

/-- Witness for C4: cost 5 over spend 18 against hard cap 20 with policy
NONE yields the defensive BLOCK. -/
theorem c4_invariant_violation_branch_witness :
    evaluate noneGov 5 18 "task" false 0 =
      { action := DecisionAction.block
        reason := "invariant_violation: on_hard_cap='none' with non-null daily_hard_cap" } :=
  (c4_invariant_violation_branch noneGov 20 5 18 "task" false 0 rfl rfl rfl
    (by norm_num)).1

/-- C1: a QUEUE outcome produced by the hard-cap or soft-cap dispatch of
`evaluate` is subject to the queue-overflow cap: with a configured
`queue_policy`, `queue_depth ≥ max_queue_depth` converts it to BLOCK with
reason `"queue_overflow"` and `queue_depth < max_queue_depth` leaves it a
QUEUE; with no `queue_policy` the QUEUE outcome passes through. -/
theorem c1_queue_overflow_conversion (gov : CostGovernor)
    (estimated_cost spent_today : ℚ) (task_id : String) (is_critical : Bool)
    (queue_depth : Int)
    (hper : perRequestExceeded gov estimated_cost = false)
    (hqueue :
      (hardCapHit gov (spent_today + estimated_cost) = true ∧
        (gov.on_hard_cap = OnHardCap.queueRequests ∨
         gov.on_hard_cap = OnHardCap.queueRequestsDefer)) ∨
      (hardCapHit gov (spent_today + estimated_cost) = false ∧
       gov.daily_soft_cap < spent_today + estimated_cost ∧
       gov.on_soft_cap = OnSoftCap.queueRequests)) :
    (∀ qp : QueuePolicy, gov.queue_policy = some qp →
      (qp.max_queue_depth ≤ queue_depth →
        evaluate gov estimated_cost spent_today task_id is_critical queue_depth =
          { action := DecisionAction.block, reason := "queue_overflow" }) ∧
      (queue_depth < qp.max_queue_depth →
        (evaluate gov estimated_cost spent_today task_id is_critical queue_depth).action =
          DecisionAction.queue)) ∧
    (gov.queue_policy = Option.none →
      (evaluate gov estimated_cost spent_today task_id is_critical queue_depth).action =
        DecisionAction.queue) := by
  have key : ∃ d0 : Decision, d0.action = DecisionAction.queue ∧
      evaluate gov estimated_cost spent_today task_id is_critical queue_depth =
        apply_queue_overflow gov d0 queue_depth := by
    rcases hqueue with ⟨hh, hoh | hoh⟩ | ⟨hh, hs, hos⟩
    · refine ⟨{ action := DecisionAction.queue
                reason := "hard_cap_exceeded: queue-requests" }, rfl, ?_⟩
      unfold evaluate
      rw [if_neg (by simp [hper])]
      rw [if_pos hh]
      simp only [hoh]
    · refine ⟨{ action := DecisionAction.queue
                reason := "hard_cap_exceeded: queue-requests-defer"
                deferred := true }, rfl, ?_⟩
      unfold evaluate
      rw [if_neg (by simp [hper])]
      rw [if_pos hh]
      simp only [hoh]
    · refine ⟨{ action := DecisionAction.queue
                reason := "soft_cap_exceeded: queue-requests" }, rfl, ?_⟩
      unfold evaluate
      rw [if_neg (by simp [hper])]
      rw [if_neg (by simp [hh])]
      rw [if_pos (decide_eq_true hs)]
      simp only [hos]
  rcases key with ⟨d0, hact, he⟩
  rw [he]
  constructor
  · intro qp hqp
    constructor
    · intro hge
      unfold apply_queue_overflow
      simp only [hqp]
      rw [if_pos hge]
    · intro hlt
      unfold apply_queue_overflow
      simp only [hqp]
      rw [if_neg (not_le.mpr hlt)]
      exact hact
  · intro hqp
    unfold apply_queue_overflow
    simp only [hqp]
    exact hact

/-- Witness for C1: with `max_queue_depth = 2`, a soft-cap QUEUE outcome
at `queue_depth = 2` becomes BLOCK `"queue_overflow"`, at `queue_depth =
1` stays QUEUE; with no `queue_policy` it stays QUEUE. -/
theorem c1_queue_overflow_conversion_witness :
    evaluate qGov 5 8 "task" false 2 =
      { action := DecisionAction.block, reason := "queue_overflow" } ∧
    (evaluate qGov 5 8 "task" false 1).action = DecisionAction.queue ∧
    (evaluate qGovNoPolicy 5 8 "task" false 2).action = DecisionAction.queue := by
  have hq : hardCapHit qGov (8 + 5) = false ∧ qGov.daily_soft_cap < 8 + 5 ∧
      qGov.on_soft_cap = OnSoftCap.queueRequests :=
    ⟨by norm_num [hardCapHit, qGov], by norm_num [qGov], rfl⟩
  have hq2 : hardCapHit qGovNoPolicy (8 + 5) = false ∧
      qGovNoPolicy.daily_soft_cap < 8 + 5 ∧
      qGovNoPolicy.on_soft_cap = OnSoftCap.queueRequests :=
    ⟨by norm_num [hardCapHit, qGovNoPolicy], by norm_num [qGovNoPolicy], rfl⟩
  refine ⟨?_, ?_, ?_⟩
  · exact ((c1_queue_overflow_conversion qGov 5 8 "task" false 2 rfl
      (Or.inr hq)).1 _ rfl).1 (by decide)
  · exact ((c1_queue_overflow_conversion qGov 5 8 "task" false 1 rfl
      (Or.inr hq)).1 _ rfl).2 (by decide)
  · exact (c1_queue_overflow_conversion qGovNoPolicy 5 8 "task" false 2 rfl
      (Or.inr hq2)).2 rfl

/-- A prefix check fails when the two strings differ at their first
character. -/
theorem strStartsWith_false_of_ne_head (s p : String) (c c' : Char)
    (cs cs' : List Char) (hs : s.data = c :: cs) (hp : p.data = c' :: cs')
    (hne : (c' == c) = false) : strStartsWith s p = false := by
  unfold strStartsWith
  rw [hs, hp]
  exact charsPrefixOf_ne_head c' cs' c cs hne

/-- The phase-0 BLOCK reason starts with the character `e`, whatever the
interpolated cost and cap render to. -/
theorem per_request_reason_head (a b : String) :
    ∃ t, ("estimated_cost (" ++ a ++ ") exceeds " ++ "per_request_cap ("
      ++ b ++ ")").data = 'e' :: t := by
  refine ⟨"stimated_cost (".data ++ a.data ++ ") exceeds ".data ++
    "per_request_cap (".data ++ b.data ++ ")".data, ?_⟩
  simp [String.data_append]

/-- C2: for a configuration with `daily_hard_cap = None`,
`runtime_invariants` reports the rule-2 violation whenever `on_hard_cap`
is not NONE, and `evaluate` never resolves in phase 1: no decision it
returns has a reason beginning `hard_cap_exceeded` or
`invariant_violation`. -/
theorem c2_no_hard_cap_never_phase1 (gov : CostGovernor)
    (hhard : gov.daily_hard_cap = Option.none) :
    (gov.on_hard_cap ≠ OnHardCap.none →
      ∃ e, runtime_invariants gov = Except.error e ∧
        ("daily_hard_cap is null so on_hard_cap must be 'none', got '" ++
          gov.on_hard_cap.value ++ "'") ∈ e) ∧
    (∀ (estimated_cost spent_today : ℚ) (task_id : String) (is_critical : Bool)
        (queue_depth : Int),
      strStartsWith
        (evaluate gov estimated_cost spent_today task_id is_critical queue_depth).reason
        "hard_cap_exceeded" = false ∧
      strStartsWith
        (evaluate gov estimated_cost spent_today task_id is_critical queue_depth).reason
        "invariant_violation" = false) := by
  constructor
  · intro hoh
    have hmem : ("daily_hard_cap is null so on_hard_cap must be 'none', got '" ++
        gov.on_hard_cap.value ++ "'") ∈ costGovernorErrors gov := by
      have h2 : hardNullErrors gov =
          ["daily_hard_cap is null so on_hard_cap must be 'none', " ++
            "got '" ++ gov.on_hard_cap.value ++ "'"] := by
        unfold hardNullErrors
        rw [if_pos ⟨hhard, hoh⟩]
      unfold costGovernorErrors
      rw [h2]
      simp [List.mem_append, String.append_assoc]
    have hne : costGovernorErrors gov ≠ [] := by
      intro h
      rw [h] at hmem
      exact absurd hmem (List.not_mem_nil _)
    refine ⟨costGovernorErrors gov, ?_, hmem⟩
    unfold runtime_invariants
    rw [if_neg hne]
  · intro estimated_cost spent_today task_id is_critical queue_depth
    have hh : hardCapHit gov (spent_today + estimated_cost) = false := by
      simp [hardCapHit, hhard]
    suffices h : ∀ d : Decision,
        evaluate gov estimated_cost spent_today task_id is_critical queue_depth = d →
        strStartsWith d.reason "hard_cap_exceeded" = false ∧
        strStartsWith d.reason "invariant_violation" = false by
      exact h _ rfl
    intro d hd
    unfold evaluate at hd
    cases hpr : perRequestExceeded gov estimated_cost
    · rw [if_neg (by simp [hpr])] at hd
      rw [if_neg (by simp [hh])] at hd
      by_cases hs : gov.daily_soft_cap < spent_today + estimated_cost
      · rw [if_pos (decide_eq_true hs)] at hd
        cases hos : gov.on_soft_cap <;> simp only [hos] at hd
        · subst hd
          exact ⟨by decide, by decide⟩
        · subst hd
          exact ⟨(by decide :
              strStartsWith "soft_cap_exceeded: degrade-model" "hard_cap_exceeded" = false),
            (by decide :
              strStartsWith "soft_cap_exceeded: degrade-model" "invariant_violation" = false)⟩
        · subst hd
          exact ⟨by decide, by decide⟩
        · rw [← hd]
          unfold apply_queue_overflow
          cases hqp : gov.queue_policy with
          | none =>
              simp only [hqp]
              exact ⟨(by decide :
                  strStartsWith "soft_cap_exceeded: queue-requests" "hard_cap_exceeded" = false),
                (by decide :
                  strStartsWith "soft_cap_exceeded: queue-requests" "invariant_violation" = false)⟩
          | some qp =>
              simp only [hqp]
              by_cases hle : qp.max_queue_depth ≤ queue_depth
              · rw [if_pos hle]
                exact ⟨(by decide :
                    strStartsWith "queue_overflow" "hard_cap_exceeded" = false),
                  (by decide :
                    strStartsWith "queue_overflow" "invariant_violation" = false)⟩
              · rw [if_neg hle]
                exact ⟨(by decide :
                    strStartsWith "soft_cap_exceeded: queue-requests" "hard_cap_exceeded" = false),
                  (by decide :
                    strStartsWith "soft_cap_exceeded: queue-requests" "invariant_violation" = false)⟩
      · rw [if_neg (by simp [hs])] at hd
        subst hd
        exact ⟨by decide, by decide⟩
    · rw [if_pos hpr] at hd
      subst hd
      obtain ⟨t1, ht⟩ := per_request_reason_head (ratStr estimated_cost) _
      exact ⟨strStartsWith_false_of_ne_head _ _ 'e' 'h' t1 "ard_cap_exceeded".data
          ht rfl (by decide),
        strStartsWith_false_of_ne_head _ _ 'e' 'i' t1 "nvariant_violation".data
          ht rfl (by decide)⟩

/-- Witness for C2: the configuration with no hard cap but `on_hard_cap =
halt-all` is reported by `runtime_invariants`, and a request against it
resolves without a phase-1 reason. -/
theorem c2_no_hard_cap_never_phase1_witness :
    (∃ e, runtime_invariants noHardGov = Except.error e ∧
      ("daily_hard_cap is null so on_hard_cap must be 'none', got '" ++
        noHardGov.on_hard_cap.value ++ "'") ∈ e) ∧
    strStartsWith (evaluate noHardGov 5 8 "task" false 0).reason
      "hard_cap_exceeded" = false ∧
    strStartsWith (evaluate noHardGov 5 8 "task" false 0).reason
      "invariant_violation" = false := by
  have h := c2_no_hard_cap_never_phase1 noHardGov rfl
  exact ⟨h.1 (by decide), (h.2 5 8 "task" false 0).1, (h.2 5 8 "task" false 0).2⟩

/-- A one-message violation list is empty iff its guard holds. -/
theorem if_msg_nil_iff (c : Prop) [Decidable c] (m : String) :
    ((if c then [] else [m]) = ([] : List String)) ↔ c := by
  by_cases h : c <;> simp [h]

/-- The status comparison of `_check_summary_and_status` succeeds exactly
when the document's `status` is the expected string. -/
theorem status_match_iff (v : Option JValue) (exp : String) :
    (match v with
      | some (.str s) => s == exp
      | _ => false) = true ↔ v = some (.str exp) := by
  cases v with
  | none => simp
  | some jv => cases jv <;> simp

/-- C8 (amended): for a health document whose `checks` is a list and
whose `summary` is an object, `_check_summary_and_status` accepts iff
`status` equals the pure function of the check statuses and every
summary count equals the computed tally; any mismatch is reported as
part of the validator's full report, provided `_check_checks` completes
without a `TypeError` (no check has an unhashable `probe_type`/`status`
— otherwise the `TypeError` escapes before the mismatch is ever
examined: see the counterexample). -/
theorem c8_status_summary_derived (data : JObj) (checks : JArr) (summary : JObj)
    (hc : jGet data "checks" = some (.arr checks))
    (hs : jGet data "summary" = some (.obj summary)) :
    (check_summary_and_status data = [] ↔
      (jGet data "status" = some (.str (derive_status checks.length
          (statusCount checks "healthy") (statusCount checks "degraded")
          (statusCount checks "unhealthy"))) ∧
       jEqNat (jGet summary "total") checks.length = true ∧
       jEqNat (jGet summary "healthy") (statusCount checks "healthy") = true ∧
       jEqNat (jGet summary "degraded") (statusCount checks "degraded") = true ∧
       jEqNat (jGet summary "unhealthy") (statusCount checks "unhealthy") = true ∧
       jEqNat (jGet summary "unknown") (statusCount checks "unknown") = true)) ∧
    (∀ (fromiso : String → Option Bool) (e3 : List String) (x : String),
      check_checks fromiso (jGet data "checks") = Except.ok e3 →
      x ∈ check_summary_and_status data → x ∈ healthErrors fromiso data e3) := by
  constructor
  · unfold check_summary_and_status
    rw [hc, hs]
    simp only [List.map_cons, List.map_nil, List.flatten_cons, List.flatten_nil,
      List.append_nil, List.append_eq_nil, if_msg_nil_iff, status_match_iff]
    tauto
  · intro fromiso e3 x h3 hx
    unfold healthErrors
    simp only [List.mem_append]
    tauto

/-- Witness for C8: a document with one unhealthy check and matching
summary passes the check with status `"unhealthy"` and fails it with
status `"healthy"`. -/
theorem c8_status_summary_derived_witness :
    check_summary_and_status healthDocGood = [] ∧
    check_summary_and_status healthDocBad ≠ [] := by
  have hgood := (c8_status_summary_derived healthDocGood
    (.cons (mkCheck "unhealthy") .nil) oneUnhealthySummary rfl rfl).1
  have hbad := (c8_status_summary_derived healthDocBad
    (.cons (mkCheck "unhealthy") .nil) oneUnhealthySummary rfl rfl).1
  constructor
  · exact hgood.mpr ⟨rfl, by decide, by decide, by decide, by decide, by decide⟩
  · intro h
    exact absurd (hbad.mp h).1 (by decide)

/-- C8 counterexample: a document asserting status `"healthy"` over one
unhealthy check — a mismatch `_check_summary_and_status` would report —
whose check also carries an unhashable `probe_type`: the health
validator raises `TypeError`, carrying no report, so the mismatch is
never reported as a violation. -/
theorem c8_status_summary_derived_counterexample :
    health_runtime_invariants (fun _ => some true) mismatchUnhashDoc =
      Except.error PyError.typeError ∧
    check_summary_and_status mismatchUnhashDoc ≠ [] := by
  refine ⟨rfl, by decide⟩

/-- A successful `strListOf` on a non-empty array yields a non-empty
list. -/
theorem strListOf_cons_ne_nil (hd : JValue) (tl : JArr) (strs : List String)
    (h : strListOf (.cons hd tl) = some strs) : strs ≠ [] := by
  cases hd with
  | str s =>
      cases hrest : strListOf tl with
      | some rest =>
          rw [strListOf, hrest] at h
          simp only [Option.some.injEq] at h
          rw [← h]
          simp
      | none =>
          rw [strListOf, hrest] at h
          exact absurd h (by simp)
  | num q =>
      simp only [strListOf] at h
      exact Option.noConfusion h
  | bool b =>
      simp only [strListOf] at h
      exact Option.noConfusion h
  | null =>
      simp only [strListOf] at h
      exact Option.noConfusion h
  | arr a =>
      simp only [strListOf] at h
      exact Option.noConfusion h
  | obj o =>
      simp only [strListOf] at h
      exact Option.noConfusion h

/-- C9 (amended): `_check_reason_codes` reports no violation iff
`reason_codes` is a non-empty list all of whose entries are strings that
are non-blank (non-empty after stripping whitespace), with no duplicates,
in sorted order; in particular `["Z_LAST","A_FIRST"]` and `["DUP","DUP"]`
are each violations while `["A_FIRST","Z_LAST"]` is not. -/
theorem c9_reason_codes_rules :
    (∀ v : Option JValue,
      check_reason_codes v = [] ↔
      ∃ codes strs, v = some (.arr codes) ∧ strListOf codes = some strs ∧
        strs ≠ [] ∧ strs.any isBlank = false ∧ strs.Nodup ∧
        pySortedStrs strs = true) ∧
    check_reason_codes
      (some (.arr (.cons (.str "Z_LAST") (.cons (.str "A_FIRST") .nil)))) ≠ [] ∧
    check_reason_codes
      (some (.arr (.cons (.str "DUP") (.cons (.str "DUP") .nil)))) ≠ [] ∧
    check_reason_codes
      (some (.arr (.cons (.str "A_FIRST") (.cons (.str "Z_LAST") .nil)))) = [] := by
  refine ⟨?_, by decide, by decide, by decide⟩
  intro v
  unfold check_reason_codes
  cases v with
  | none => simp
  | some jv =>
      cases jv with
      | str s => simp
      | num q => simp
      | bool b => simp
      | null => simp
      | obj o => simp
      | arr codes =>
          cases codes with
          | nil => simp [strListOf]
          | cons hd tl =>
              cases hsl : strListOf (.cons hd tl) with
              | none =>
                  simp only [hsl]
                  constructor
                  · intro h
                    exact absurd h (by simp)
                  · rintro ⟨codes', strs', heq, hsl', -, -, -, -⟩
                    simp only [Option.some.injEq, JValue.arr.injEq] at heq
                    subst heq
                    rw [hsl] at hsl'
                    exact Option.noConfusion hsl'
              | some strs =>
                  have hne := strListOf_cons_ne_nil hd tl strs hsl
                  simp only [hsl]
                  by_cases hb : strs.any isBlank = true
                  · rw [if_pos hb]
                    constructor
                    · intro h
                      exact absurd h (by simp)
                    · rintro ⟨codes', strs', heq, hsl', -, hall', -, -⟩
                      simp only [Option.some.injEq, JValue.arr.injEq] at heq
                      subst heq
                      rw [hsl] at hsl'
                      simp only [Option.some.injEq] at hsl'
                      subst hsl'
                      rw [hall'] at hb
                      exact Bool.noConfusion hb
                  · rw [if_neg hb]
                    have hfalse : strs.any isBlank = false := by
                      revert hb
                      cases strs.any isBlank <;> simp
                    constructor
                    · intro h
                      rw [List.append_eq_nil] at h
                      exact ⟨JArr.cons hd tl, strs, rfl, hsl, hne, hfalse,
                        (if_msg_nil_iff _ _).mp h.1, (if_msg_nil_iff _ _).mp h.2⟩
                    · rintro ⟨codes', strs', heq, hsl', -, -, hnd, hsrt⟩
                      simp only [Option.some.injEq, JValue.arr.injEq] at heq
                      subst heq
                      rw [hsl] at hsl'
                      simp only [Option.some.injEq] at hsl'
                      subst hsl'
                      rw [List.append_eq_nil]
                      exact ⟨(if_msg_nil_iff _ _).mpr hnd, (if_msg_nil_iff _ _).mpr hsrt⟩

/-- C9 counterexample: a whitespace-only entry `" "` is a non-empty
string, alone in a non-empty, duplicate-free, sorted list — the claim's
conditions all hold — yet `_check_reason_codes` reports a violation. -/
theorem c9_reason_codes_rules_counterexample :
    check_reason_codes (some (.arr (.cons (.str " ") .nil))) ≠ [] ∧
    (" " : String) ≠ "" ∧ (List.Nodup [(" " : String)]) ∧
    pySortedStrs [" "] = true :=
  ⟨by decide, by decide, by simp, by decide⟩

mutual
/-- `_check_no_secrets` computes exactly the spec's per-string-value
findings. -/
theorem check_no_secrets_eq_spec : ∀ (t : PyObj) (path : String),
    check_no_secrets t path =
      ((stringLeaves t path).map (fun pv => secretFindings pv.2 pv.1)).flatten
  | .str s, path => by simp [check_no_secrets, stringLeaves]
  | .num q, path => by simp [check_no_secrets, stringLeaves]
  | .bool b, path => by simp [check_no_secrets, stringLeaves]
  | .none, path => by simp [check_no_secrets, stringLeaves]
  | .list items, path => by
      simp only [check_no_secrets, stringLeaves]
      exact check_no_secrets_items_eq_spec items path 0
  | .dataclass fields, path => by
      simp only [check_no_secrets, stringLeaves]
      exact check_no_secrets_fields_eq_spec fields path
/-- Item loop of the previous lemma. -/
theorem check_no_secrets_items_eq_spec : ∀ (l : PyList) (path : String) (i : Nat),
    check_no_secrets_items l path i =
      ((stringLeavesItems l path i).map (fun pv => secretFindings pv.2 pv.1)).flatten
  | .nil, path, i => by simp [check_no_secrets_items, stringLeavesItems]
  | .cons hd tl, path, i => by
      simp only [check_no_secrets_items, stringLeavesItems, List.map_append,
        List.flatten_append]
      rw [check_no_secrets_eq_spec hd, check_no_secrets_items_eq_spec tl path (i + 1)]
/-- Field loop of the previous lemma. -/
theorem check_no_secrets_fields_eq_spec : ∀ (fs : PyFields) (path : String),
    check_no_secrets_fields fs path =
      ((stringLeavesFields fs path).map (fun pv => secretFindings pv.2 pv.1)).flatten
  | .nil, path => by simp [check_no_secrets_fields, stringLeavesFields]
  | .cons n v tl, path => by
      simp only [check_no_secrets_fields, stringLeavesFields, List.map_append,
        List.flatten_append]
      rw [check_no_secrets_eq_spec v, check_no_secrets_fields_eq_spec tl path]
end

mutual
/-- `_check_no_secrets_raw` computes exactly the spec's per-string-value
findings over a raw tree. -/
theorem check_no_secrets_raw_eq_spec : ∀ (v : JValue) (path : String),
    check_no_secrets_raw v path =
      ((jStringLeaves v path).map (fun pv => secretFindings pv.2 pv.1)).flatten
  | .str s, path => by simp [check_no_secrets_raw, jStringLeaves]
  | .num q, path => by simp [check_no_secrets_raw, jStringLeaves]
  | .bool b, path => by simp [check_no_secrets_raw, jStringLeaves]
  | .null, path => by simp [check_no_secrets_raw, jStringLeaves]
  | .arr items, path => by
      simp only [check_no_secrets_raw, jStringLeaves]
      exact check_no_secrets_raw_items_eq_spec items path 0
  | .obj entries, path => by
      simp only [check_no_secrets_raw, jStringLeaves]
      exact check_no_secrets_raw_entries_eq_spec entries path
/-- Item loop of the previous lemma. -/
theorem check_no_secrets_raw_items_eq_spec : ∀ (l : JArr) (path : String) (i : Nat),
    check_no_secrets_raw_items l path i =
      ((jStringLeavesItems l path i).map (fun pv => secretFindings pv.2 pv.1)).flatten
  | .nil, path, i => by simp [check_no_secrets_raw_items, jStringLeavesItems]
  | .cons hd tl, path, i => by
      simp only [check_no_secrets_raw_items, jStringLeavesItems, List.map_append,
        List.flatten_append]
      rw [check_no_secrets_raw_eq_spec hd,
        check_no_secrets_raw_items_eq_spec tl path (i + 1)]
/-- Entry loop of the previous lemma. -/
theorem check_no_secrets_raw_entries_eq_spec : ∀ (o : JObj) (path : String),
    check_no_secrets_raw_entries o path =
      ((jStringLeavesEntries o path).map (fun pv => secretFindings pv.2 pv.1)).flatten
  | .nil, path => by simp [check_no_secrets_raw_entries, jStringLeavesEntries]
  | .cons k v tl, path => by
      simp only [check_no_secrets_raw_entries, jStringLeavesEntries, List.map_append,
        List.flatten_append]
      rw [check_no_secrets_raw_eq_spec v, check_no_secrets_raw_entries_eq_spec tl path]
end

/-- C6 (amended): the two cost-governor secret scans flag exactly the
string values of the tree, at any depth, at their structural paths, per
the two case-insensitive rules (`"sk-"`; `"apikey"` unless the value
begins with `"$\x7b"`), one finding per rule per value — every occurrence
reported.  (The health/logging/routing `_scan_secrets` is
case-sensitive for `"sk-"` and has no value-level apikey rule: see the
counterexample.) -/
theorem c6_secret_scan_values :
    (∀ (t : PyObj) (path : String),
      check_no_secrets t path = secret_scan_spec t path) ∧
    (∀ (v : JValue) (path : String),
      check_no_secrets_raw v path = secret_scan_raw_spec v path) :=
  ⟨fun t path => check_no_secrets_eq_spec t path,
   fun v path => check_no_secrets_raw_eq_spec v path⟩

/-- C6 counterexample: the health/logging/routing raw scan does not flag
a value containing `"sk-"` only case-insensitively, nor a bare
`"apikey"`-containing value. -/
theorem c6_secret_scan_values_counterexample :
    containsCI "SK-abc123" "sk-" = true ∧
    scan_secrets (.obj (.cons "note" (.str "SK-abc123") .nil)) "$" = [] ∧
    containsCI "my apikey value" "apikey" = true ∧
    strStartsWith "my apikey value" "$\x7b" = false ∧
    scan_secrets (.obj (.cons "note" (.str "my apikey value") .nil)) "$" = [] :=
  ⟨by decide, rfl, by decide, by decide, rfl⟩

mutual
/-- Every key finding the spec promises is among the findings of
`_scan_secrets` (health/logging/routing). -/
theorem skKeyMsgs_subset : ∀ (v : JValue) (path m : String),
    m ∈ skKeyMsgs v path → m ∈ scan_secrets v path
  | .str s, path, m => by simp [skKeyMsgs]
  | .num q, path, m => by simp [skKeyMsgs]
  | .bool b, path, m => by simp [skKeyMsgs]
  | .null, path, m => by simp [skKeyMsgs]
  | .arr items, path, m => by
      simp only [skKeyMsgs, scan_secrets]
      exact skKeyMsgsItems_subset items path 0 m
  | .obj entries, path, m => by
      simp only [skKeyMsgs, scan_secrets]
      exact skKeyMsgsEntries_subset entries path m
/-- Item loop of the previous lemma. -/
theorem skKeyMsgsItems_subset : ∀ (l : JArr) (path : String) (i : Nat) (m : String),
    m ∈ skKeyMsgsItems l path i → m ∈ scan_secrets_items l path i
  | .nil, path, i, m => by simp [skKeyMsgsItems]
  | .cons hd tl, path, i, m => by
      intro hm
      simp only [skKeyMsgsItems, List.mem_append] at hm
      simp only [scan_secrets_items, List.mem_append]
      rcases hm with h | h
      · exact Or.inl (skKeyMsgs_subset hd _ m h)
      · exact Or.inr (skKeyMsgsItems_subset tl path (i + 1) m h)
/-- Entry loop of the previous lemma. -/
theorem skKeyMsgsEntries_subset : ∀ (o : JObj) (path m : String),
    m ∈ skKeyMsgsEntries o path → m ∈ scan_secrets_entries o path
  | .nil, path, m => by simp [skKeyMsgsEntries]
  | .cons k v tl, path, m => by
      intro hm
      simp only [skKeyMsgsEntries, List.mem_append] at hm
      simp only [scan_secrets_entries, List.mem_append]
      rcases hm with (h | h) | h
      · exact Or.inl (Or.inl (Or.inl h))
      · exact Or.inl (Or.inr (skKeyMsgs_subset v _ m h))
      · exact Or.inr (skKeyMsgsEntries_subset tl path m h)
end

/-- C7 (amended): the health/logging/routing raw-tree scan flags every
map key containing `"sk-"`, at any depth, reporting a finding at that
key's path (the cost-governor `_check_no_secrets_raw` scans only values
and flags no keys: see the counterexample). -/
theorem c7_raw_scan_flags_keys (v : JValue) (path m : String)
    (h : m ∈ skKeyMsgs v path) : m ∈ scan_secrets v path :=
  skKeyMsgs_subset v path m h

/-- Witness for C7: a key `"sk-live-key"` smuggled as a map key is
reported at its path by the shared raw scan. -/
theorem c7_raw_scan_flags_keys_witness :
    "secret-like 'sk-' substring found in key at $.sk-live-key" ∈
      scan_secrets (.obj (.cons "sk-live-key" (.bool true) .nil)) "$" :=
  c7_raw_scan_flags_keys (.obj (.cons "sk-live-key" (.bool true) .nil)) "$"
    "secret-like 'sk-' substring found in key at $.sk-live-key" (by decide)

/-- C7 counterexample: the cost-governor raw-dict scan produces no
finding for a map key containing `"sk-"`. -/
theorem c7_raw_scan_flags_keys_counterexample :
    containsSub "sk-live-key" "sk-" = true ∧
    check_no_secrets_raw (.obj (.cons "sk-live-key" (.bool true) .nil)) "" = [] :=
  ⟨by decide, rfl⟩
